import Mathlib

/-!
Verification development for `verify_example.py`, a GitHub configuration-analysis
verification script.  The Python source is shallowly embedded here:

* JSON-like Python values become the inductive type `JVal` (Python `bool`/`int`/
  `float` are all numbers carrying a `NumTag`, since Python treats `True == 1 == 1.0`
  and `isinstance(True, int)`).
* Fallible Python code runs in `PyM := Except String`; the error string names the
  Python exception class that would be raised (an uncaught exception).
* The mock GitHub adapter, the document loader (with real base64/UTF-8/JSON
  round-tripping), the three validators and the main driver are translated
  function by function.
* The live-network branch of the adapter is modelled by an oracle function in
  `World`, since its replies are outside the program.

Unicode-only divergences that no theorem below exercises (Python `str.lower`
on non-ASCII cased letters, `\d` matching non-ASCII digits, underscores in
`int()` literals, IEEE-754 shortest-repr float printing, non-canonical base64
padding) are noted at the corresponding definitions.
-/

/-- The tag distinguishing Python's three numeric types.  JSON `true`/`false`
parse to Python `bool`, which is a subtype of `int`. -/
inductive NumTag where
  | int
  | float
  | bool
deriving DecidableEq, Repr

/-- Shallow embedding of the Python values the script manipulates (the values
`json.loads` can produce, which is all a validator ever sees).  Numbers carry
their exact rational value; Python `None` and JSON `null` are both `JVal.null`. -/
inductive JVal where
  | null : JVal
  | num (tag : NumTag) (q : Rat) : JVal
  | str (s : String) : JVal
  | arr (elems : List JVal) : JVal
  | obj (fields : List (String × JVal)) : JVal

mutual

/-- Structural size of an embedded value (fuel for Python `==`). -/
def jSize : JVal → Nat
  | .null => 1
  | .num _ _ => 1
  | .str _ => 1
  | .arr xs => 1 + jSizeList xs
  | .obj fs => 1 + jSizeFields fs

/-- Structural size of a list of embedded values. -/
def jSizeList : List JVal → Nat
  | [] => 0
  | x :: xs => 1 + jSize x + jSizeList xs

/-- Structural size of an association list of embedded values. -/
def jSizeFields : List (String × JVal) → Nat
  | [] => 0
  | (_, v) :: fs => 1 + jSize v + jSizeFields fs

end

/-- Python exceptions escape as `Except.error name-of-exception-class`. -/
abbrev PyM (α : Type) := Except String α

/-- Sequencing of fallible Python statements (exception propagation). -/
def pbind {α β : Type} (m : PyM α) (f : α → PyM β) : PyM β :=
  match m with
  | .error e => .error e
  | .ok a => f a

@[simp] theorem pbind_ok {α β : Type} (a : α) (f : α → PyM β) : pbind (.ok a) f = f a := rfl

@[simp] theorem pbind_error {α β : Type} (e : String) (f : α → PyM β) :
    pbind (.error e) f = .error e := rfl

/-- Python `dict` lookup on an association list.  Objects built below (literals
and the JSON parser, which updates duplicate keys in place) have unique keys,
so first-match lookup agrees with Python's dictionary. -/
def olookup : List (String × JVal) → String → Option JVal
  | [], _ => none
  | (k, v) :: rest, key => if k = key then some v else olookup rest key

/-- Python `dict` insertion: an existing key keeps its position and gets the new
value, a new key is appended (insertion order). -/
def oinsert : List (String × JVal) → String → JVal → List (String × JVal)
  | [], key, v => [(key, v)]
  | (k, w) :: rest, key, v =>
    if k = key then (k, v) :: rest else (k, w) :: oinsert rest key v

/-- Python truthiness of an embedded value (`bool(x)`). -/
def pyTruthy : JVal → Bool
  | .null => false
  | .num _ q => decide (¬ q = 0)
  | .str s => decide (¬ s = "")
  | .arr xs => !xs.isEmpty
  | .obj fs => !fs.isEmpty

/-- Truthiness of an optional payload (`not data` on a value that may be `None`). -/
def truthyOpt : Option JVal → Bool
  | none => false
  | some v => pyTruthy v

/-- Fuel-indexed core of Python `==`.  Numbers compare by value across
`int`/`float`/`bool` (Python's numeric coercion); strings, lists and dicts
compare structurally, dicts without regard to key order. -/
def pyEqF : Nat → JVal → JVal → Bool
  | 0, _, _ => false
  | _ + 1, .null, .null => true
  | _ + 1, .num _ q, .num _ q' => decide (q = q')
  | _ + 1, .str s, .str t => decide (s = t)
  | f + 1, .arr xs, .arr ys =>
    decide (xs.length = ys.length) && (xs.zip ys).all fun p => pyEqF f p.1 p.2
  | f + 1, .obj xs, .obj ys =>
    decide (xs.length = ys.length) && xs.all fun kv =>
      match olookup ys kv.1 with
      | some w => pyEqF f kv.2 w
      | none => false
  | _ + 1, _, _ => false

/-- Python `==` on embedded values.  The fuel `jSize a + 1` strictly exceeds the
nesting depth of `a`, and every recursive call descends into `a`, so the fuel
never runs out on the left argument's structure. -/
def pyEq (a b : JVal) : Bool := pyEqF (jSize a + 1) a b

/-- Python `<=`.  The script only ever compares the scalar values appearing in
range policies; comparisons between other shapes raise `TypeError` exactly as
Python does for mixed scalar types (list/list lexicographic comparison is not
modelled — no code path reached by the spec compares containers). -/
def pyLE (a b : JVal) : PyM Bool :=
  match a, b with
  | .num _ q, .num _ q' => .ok (decide (q ≤ q'))
  | .str s, .str t => .ok (decide (s ≤ t))
  | _, _ => .error "TypeError"

/-- Python `x.get(k)` (missing key gives `None`); raises `AttributeError` on a
non-dict receiver. -/
def pyGet (v : JVal) (k : String) : PyM JVal :=
  match v with
  | .obj fs => .ok ((olookup fs k).getD .null)
  | _ => .error "AttributeError"

/-- Python `x.get(k, d)`; raises `AttributeError` on a non-dict receiver. -/
def pyGetD (v : JVal) (k : String) (d : JVal) : PyM JVal :=
  match v with
  | .obj fs => .ok ((olookup fs k).getD d)
  | _ => .error "AttributeError"

/-- Python `x[k]` with a string key: `KeyError` when the key is absent from a
dict, `TypeError` when the receiver is a list, string or other non-dict. -/
def pyIndex (v : JVal) (k : String) : PyM JVal :=
  match v with
  | .obj fs =>
    match olookup fs k with
    | some w => .ok w
    | none => .error "KeyError"
  | _ => .error "TypeError"

/-- `needle.isPrefix-of hay` on character lists (used to model `str.startswith`
and as the inner step of substring search). -/
def leadsWith : List Char → List Char → Bool
  | [], _ => true
  | _ :: _, [] => false
  | n :: ns, h :: hs => decide (n = h) && leadsWith ns hs

/-- Python `needle in hay` substring test on character lists. -/
def containsSub (needle : List Char) : List Char → Bool
  | [] => leadsWith needle []
  | h :: hs => leadsWith needle (h :: hs) || containsSub needle hs

/-- Python `s.startswith(p)`. -/
def strStarts (s p : String) : Bool := leadsWith p.toList s.toList

/-- Python `k in v` for a string operand: substring test on strings, key test on
dicts, element test on lists, `TypeError` on non-containers. -/
def pyIn (k : String) (v : JVal) : PyM Bool :=
  match v with
  | .obj fs => .ok (fs.any fun kv => decide (kv.1 = k))
  | .arr xs => .ok (xs.any fun x => pyEq (.str k) x)
  | .str s => .ok (containsSub k.toList s.toList)
  | _ => .error "TypeError"

/-- ASCII lower-casing of one character (Python `str.lower`; the script's
keywords and fixtures contain no non-ASCII cased letters, so the ASCII fragment
is exact here). -/
def asciiLower (c : Char) : Char :=
  if 'A' ≤ c ∧ c ≤ 'Z' then Char.ofNat (c.toNat + 32) else c

/-- Python `s.lower()` on the ASCII fragment. -/
def lowerStr (s : String) : String := String.mk (s.toList.map asciiLower)

/-- `endpoint.split("/")[-1]`: the segment after the last slash. -/
def lastSegAux : List Char → List Char → List Char
  | acc, [] => acc.reverse
  | _, '/' :: rest => lastSegAux [] rest
  | acc, c :: rest => lastSegAux (c :: acc) rest

/-- The last `/`-separated segment of a string. -/
def lastSeg (s : String) : String := String.mk (lastSegAux [] s.toList)

/-- Whitespace stripped by Python `int(str)`. -/
def pySpace (c : Char) : Bool :=
  decide (c = ' ') || decide (c = '\t') || decide (c = '\n') || decide (c = '\r') ||
    decide (c = '\x0b') || decide (c = '\x0c')

/-- Decimal digits to the natural number they denote. -/
def natOfDigits (ds : List Char) : Nat :=
  ds.foldl (fun a c => a * 10 + (c.toNat - 48)) 0

/-- Python `int(s)`: optional surrounding whitespace, optional sign, a nonempty
ASCII digit run; anything else raises `ValueError` (`none`).  Underscore
separators and non-ASCII digits, which Python would also accept, are not
modelled — the script only parses the numeric tail of `issues/<n>` endpoints. -/
def pyIntParse (s : String) : Option Int :=
  let l := ((s.toList.dropWhile pySpace).reverse.dropWhile pySpace).reverse
  let (neg, l1) :=
    match l with
    | '-' :: rest => (true, rest)
    | '+' :: rest => (false, rest)
    | _ => (false, l)
  if l1 = [] then none
  else if l1.all Char.isDigit then
    some (if neg then -(natOfDigits l1 : Int) else (natOfDigits l1 : Int))
  else none

/-- Decimal rendering of a natural number. -/
def natDec (n : Nat) : String := Nat.repr n

/-- Python `str` of an integer. -/
def intDec (n : Int) : String :=
  if n < 0 then "-" ++ natDec n.natAbs else natDec n.toNat

/-! ## Regular-expression checks

The script uses two concrete patterns with `re.match`: `^[a-f0-9]{40}$` (with
`re.IGNORECASE`) for commit SHAs and `^\d{4}-\d{2}-\d{2}$` for dates.  With
`re.match`, `^` anchors at the start and `$` matches at the end of the string
*or just before a newline that is the last character* — Python semantics that
the models below reproduce.  `\d` is modelled as an ASCII digit (Python's
Unicode digits are not exercised by any fixture). -/

/-- A character accepted by `[a-f0-9]` under `re.IGNORECASE`. -/
def isHexCI (c : Char) : Bool :=
  (decide ('0' ≤ c) && decide (c ≤ '9')) ||
    (decide ('a' ≤ c) && decide (c ≤ 'f')) ||
    (decide ('A' ≤ c) && decide (c ≤ 'F'))

/-- The core of `[a-f0-9]{40}` applied to the whole character list. -/
def shaCore (l : List Char) : Bool := decide (l.length = 40) && l.all isHexCI

/-- The core of `\d{4}-\d{2}-\d{2}` applied to the whole character list. -/
def dateCore : List Char → Bool
  | [y1, y2, y3, y4, h1, m1, m2, h2, d1, d2] =>
    y1.isDigit && y2.isDigit && y3.isDigit && y4.isDigit &&
      decide (h1 = '-') && m1.isDigit && m2.isDigit && decide (h2 = '-') &&
      d1.isDigit && d2.isDigit
  | _ => false

/-- `re.match("^...$", s)`: the core must match the whole string, or the whole
string minus a single trailing newline (Python's `$`). -/
def reAnchored (core : List Char → Bool) (s : String) : Bool :=
  core s.toList ||
    (decide (s.toList.getLast? = some '\n') && core s.toList.dropLast)

/-- `re.match(r"^[a-f0-9]{40}$", s, re.IGNORECASE)` as a boolean. -/
def reMatchSha (s : String) : Bool := reAnchored shaCore s

/-- `re.match(CONFIG date pattern, commit_date)`: raises `TypeError` when fed a
non-string (exactly as `re.match` does), else reports the anchored match. -/
def reMatchDateV (v : JVal) : PyM Bool :=
  match v with
  | .str s => .ok (reAnchored dateCore s)
  | _ => .error "TypeError"

/-! ## Base64 (standard alphabet, canonical padding)

`base64.b64encode(bytes).decode()` and `base64.b64decode(str)` as used by the
mock fixture and the loader.  Decoding models the canonical form: ASCII input,
discarding of non-alphabet characters, length divisible by four after
filtering, padding only in the final quantum (Python tolerates some
non-canonical paddings; no fixture produces one, and the loader maps every
decode failure to `None` anyway). -/

/-- The standard base64 alphabet. -/
def b64Chars : List Char :=
  "ABCDEFGHIJKLMNOPQRSTUVWXYZabcdefghijklmnopqrstuvwxyz0123456789+/".toList

/-- The alphabet character of a 6-bit value. -/
def b64Digit (n : Nat) : Char := b64Chars.getD n 'A'

/-- The 6-bit value of an alphabet character, if any (`A`–`Z`, `a`–`z`, `0`–`9`,
`+`, `/` in alphabet order). -/
def b64Index (c : Char) : Option Nat :=
  let n := c.toNat
  if 65 ≤ n ∧ n ≤ 90 then some (n - 65)
  else if 97 ≤ n ∧ n ≤ 122 then some (n - 71)
  else if 48 ≤ n ∧ n ≤ 57 then some (n + 4)
  else if n = 43 then some 62
  else if n = 47 then some 63
  else none

/-- Base64-encode a byte list (bytes as `Nat < 256`). -/
def b64encodeBytes : List Nat → List Char
  | [] => []
  | [a] => [b64Digit (a / 4), b64Digit (a % 4 * 16), '=', '=']
  | [a, b] => [b64Digit (a / 4), b64Digit (a % 4 * 16 + b / 16), b64Digit (b % 16 * 4), '=']
  | a :: b :: c :: rest =>
    b64Digit (a / 4) :: b64Digit (a % 4 * 16 + b / 16) ::
      b64Digit (b % 16 * 4 + c / 64) :: b64Digit (c % 64) :: b64encodeBytes rest

/-- Decode filtered base64 quanta (groups of four alphabet/padding characters);
`acc` holds the decoded bytes, reversed. -/
def b64quantaAux : List Char → List Nat → Option (List Nat)
  | [], acc => some acc.reverse
  | a :: b :: c :: d :: rest, acc =>
    match b64Index a, b64Index b with
    | some x, some y =>
      if c = '=' then
        if d = '=' ∧ rest = [] then some (((x * 4 + y / 16) :: acc).reverse) else none
      else
        match b64Index c with
        | some z =>
          if d = '=' then
            if rest = [] then
              some (((y % 16 * 16 + z / 4) :: (x * 4 + y / 16) :: acc).reverse)
            else none
          else
            match b64Index d with
            | some w =>
              b64quantaAux rest
                ((z % 4 * 64 + w) :: (y % 16 * 16 + z / 4) :: (x * 4 + y / 16) :: acc)
            | none => none
        | none => none
    | _, _ => none
  | _, _ => none

/-- Decode filtered base64 quanta. -/
def b64quanta (l : List Char) : Option (List Nat) := b64quantaAux l []

/-- `base64.b64decode(s)` for a `str` argument: the string must be ASCII
(Python encodes it with the ascii codec first), non-alphabet characters are
discarded, and the rest must form well-padded quanta. -/
def b64decodeStr (s : String) : Option (List Nat) :=
  if s.toList.any (fun c => decide (128 ≤ c.toNat)) then none
  else b64quanta (s.toList.filter fun c => (b64Index c).isSome || decide (c = '='))

/-! ## UTF-8 -/

/-- UTF-8 encoding of one scalar value. -/
def utf8EncChar (c : Char) : List Nat :=
  let n := c.toNat
  if n < 128 then [n]
  else if n < 2048 then [192 + n / 64, 128 + n % 64]
  else if n < 65536 then [224 + n / 4096, 128 + n / 64 % 64, 128 + n % 64]
  else [240 + n / 262144, 128 + n / 4096 % 64, 128 + n / 64 % 64, 128 + n % 64]

/-- `s.encode("utf-8")` as a byte list. -/
def utf8Enc (s : String) : List Nat := s.toList.foldr (fun c acc => utf8EncChar c ++ acc) []

/-- A UTF-8 continuation byte. -/
def isCont (b : Nat) : Bool := decide (128 ≤ b) && decide (b < 192)

/-- A Unicode scalar value (excludes surrogates). -/
def validScalar (n : Nat) : Bool :=
  decide (n < 55296) || (decide (57344 ≤ n) && decide (n < 1114112))

/-- Strict UTF-8 decoding (`bytes.decode("utf-8")`): rejects overlong forms,
surrogates, out-of-range scalars and truncated sequences, like Python; `acc`
holds the decoded characters, reversed. -/
def utf8DecAux : List Nat → List Char → Option (List Char)
  | [], acc => some acc.reverse
  | b :: rest, acc =>
    if b < 128 then utf8DecAux rest (Char.ofNat b :: acc)
    else if b < 194 then none
    else if b < 224 then
      match rest with
      | b2 :: rest2 =>
        if isCont b2 then utf8DecAux rest2 (Char.ofNat ((b - 192) * 64 + (b2 - 128)) :: acc)
        else none
      | [] => none
    else if b < 240 then
      match rest with
      | b2 :: b3 :: rest3 =>
        if isCont b2 && isCont b3 then
          let n := (b - 224) * 4096 + (b2 - 128) * 64 + (b3 - 128)
          if decide (2048 ≤ n) && validScalar n then utf8DecAux rest3 (Char.ofNat n :: acc)
          else none
        else none
      | _ => none
    else if b < 245 then
      match rest with
      | b2 :: b3 :: b4 :: rest4 =>
        if isCont b2 && isCont b3 && isCont b4 then
          let n := (b - 240) * 262144 + (b2 - 128) * 4096 + (b3 - 128) * 64 + (b4 - 128)
          if decide (65536 ≤ n) && decide (n < 1114112) then utf8DecAux rest4 (Char.ofNat n :: acc)
          else none
        else none
      | _ => none
    else none

/-- Strict UTF-8 decoding of a byte list. -/
def utf8Dec (bs : List Nat) : Option (List Char) := utf8DecAux bs []

/-- `bytes.decode("utf-8")` to a string. -/
def utf8DecStr (bs : List Nat) : Option String := (utf8Dec bs).map String.mk

/-! ## JSON (`json.loads` / `json.dumps` with default options)

The parser follows the strict JSON grammar that Python's `json.loads` accepts
(leading-zero rule, `\uXXXX` escapes with surrogate pairs, duplicate object
keys resolved last-wins).  `NaN`/`Infinity` literals and the rounding of
decimal literals to IEEE doubles are not modelled: every number is kept as its
exact rational value (no fixture in this development contains a non-integral
number).  The serializer reproduces `json.dumps` defaults: `", "`/`": "`
separators, `ensure_ascii=True` escaping, insertion-ordered keys. -/

/-- JSON insignificant whitespace. -/
def jsonWs (c : Char) : Bool :=
  decide (c = ' ') || decide (c = '\t') || decide (c = '\n') || decide (c = '\r')

/-- Skip insignificant whitespace. -/
def skipWs (l : List Char) : List Char := l.dropWhile jsonWs

/-- Value of one hexadecimal digit. -/
def hexVal (c : Char) : Option Nat :=
  if '0' ≤ c ∧ c ≤ '9' then some (c.toNat - 48)
  else if 'a' ≤ c ∧ c ≤ 'f' then some (c.toNat - 87)
  else if 'A' ≤ c ∧ c ≤ 'F' then some (c.toNat - 55)
  else none

/-- Parse the body of a JSON string after the opening quote; `acc` holds the
characters read so far, reversed.  Lone surrogates (which Python would keep in
its `str`) are rejected, as Lean characters are scalar values; no fixture
contains one. -/
def parseStrChars : List Char → List Char → Option (String × List Char)
  | [], _ => none
  | c :: rest, acc =>
    if c = '"' then some (String.mk acc.reverse, rest)
    else if c = '\\' then
      match rest with
      | [] => none
      | e :: r2 =>
        if e = '"' then parseStrChars r2 ('"' :: acc)
        else if e = '\\' then parseStrChars r2 ('\\' :: acc)
        else if e = '/' then parseStrChars r2 ('/' :: acc)
        else if e = 'b' then parseStrChars r2 ('\x08' :: acc)
        else if e = 'f' then parseStrChars r2 ('\x0c' :: acc)
        else if e = 'n' then parseStrChars r2 ('\n' :: acc)
        else if e = 'r' then parseStrChars r2 ('\r' :: acc)
        else if e = 't' then parseStrChars r2 ('\t' :: acc)
        else if e = 'u' then
          match r2 with
          | h1 :: h2 :: h3 :: h4 :: r3 =>
            match hexVal h1, hexVal h2, hexVal h3, hexVal h4 with
            | some a, some b, some c2, some d =>
              let n := a * 4096 + b * 256 + c2 * 16 + d
              if validScalar n then parseStrChars r3 (Char.ofNat n :: acc)
              else if decide (55296 ≤ n) && decide (n < 56320) then
                match r3 with
                | '\\' :: 'u' :: g1 :: g2 :: g3 :: g4 :: r4 =>
                  match hexVal g1, hexVal g2, hexVal g3, hexVal g4 with
                  | some a', some b', some c', some d' =>
                    let m := a' * 4096 + b' * 256 + c' * 16 + d'
                    if decide (56320 ≤ m) && decide (m < 57344) then
                      parseStrChars r4
                        (Char.ofNat (65536 + (n - 55296) * 1024 + (m - 56320)) :: acc)
                    else none
                  | _, _, _, _ => none
                | _ => none
              else none
            | _, _, _, _ => none
          | _ => none
        else none
    else if c.toNat < 32 then none
    else parseStrChars rest (c :: acc)

/-- Parse an optional fraction part; reports whether one was present. -/
def parseFracPart : List Char → Option (Bool × Rat × List Char)
  | '.' :: cs =>
    (match cs.span Char.isDigit with
     | (fs, rest) =>
       if fs = [] then none
       else some (true, (natOfDigits fs : Rat) / (10 : Rat) ^ fs.length, rest))
  | cs => some (false, 0, cs)

/-- Parse an optional exponent part; reports whether one was present. -/
def parseExpPart : List Char → Option (Bool × Int × List Char)
  | [] => some (false, 0, [])
  | c :: cs =>
    if c = 'e' ∨ c = 'E' then
      let (esign, cs1) : Int × List Char :=
        match cs with
        | '+' :: r => (1, r)
        | '-' :: r => (-1, r)
        | _ => (1, cs)
      match cs1.span Char.isDigit with
      | (es, rest) =>
        if es = [] then none else some (true, esign * (natOfDigits es : Int), rest)
    else some (false, 0, c :: cs)

/-- Parse a JSON number (strict grammar: no leading zeros, digits required
around `.` and after `e`).  Integer literals become Python `int`, literals with
a fraction or exponent become Python `float`. -/
def parseNum (cs : List Char) : Option (JVal × List Char) :=
  let (neg, cs1) :=
    match cs with
    | '-' :: rest => (true, rest)
    | _ => (false, cs)
  match cs1.span Char.isDigit with
  | (ds, cs2) =>
    if ds = [] then none
    else if 1 < ds.length ∧ ds.headD '0' = '0' then none
    else
      match parseFracPart cs2 with
      | none => none
      | some (hasFrac, fq, cs3) =>
        match parseExpPart cs3 with
        | none => none
        | some (hasExp, e, rest) =>
          if hasFrac ∨ hasExp then
            let mag : Rat := ((natOfDigits ds : Rat) + fq) *
              (if 0 ≤ e then (10 : Rat) ^ e.toNat else 1 / (10 : Rat) ^ (-e).toNat)
            some (.num .float (if neg then -mag else mag), rest)
          else
            let n : Int := natOfDigits ds
            some (.num .int (((if neg then -n else n) : Int) : Rat), rest)

mutual

/-- Parse one JSON value.  The fuel decreases on every nested value; callers
supply `input length + 2`, which always suffices because each parsed value
consumes at least one character. -/
def parseVal : Nat → List Char → Option (JVal × List Char)
  | 0, _ => none
  | fuel + 1, cs =>
    match skipWs cs with
    | [] => none
    | c :: rest =>
      if c = '"' then (parseStrChars rest []).map fun p => (JVal.str p.1, p.2)
      else if c = 't' then
        match rest with
        | 'r' :: 'u' :: 'e' :: r2 => some (.num .bool 1, r2)
        | _ => none
      else if c = 'f' then
        match rest with
        | 'a' :: 'l' :: 's' :: 'e' :: r2 => some (.num .bool 0, r2)
        | _ => none
      else if c = 'n' then
        match rest with
        | 'u' :: 'l' :: 'l' :: r2 => some (.null, r2)
        | _ => none
      else if c = '[' then
        match skipWs rest with
        | ']' :: r2 => some (.arr [], r2)
        | _ => parseElems fuel rest []
      else if c = '\x7b' then
        match skipWs rest with
        | '\x7d' :: r2 => some (.obj [], r2)
        | _ => parseFields fuel rest []
      else parseNum (c :: rest)

/-- Parse the comma-separated elements of a nonempty JSON array. -/
def parseElems : Nat → List Char → List JVal → Option (JVal × List Char)
  | 0, _, _ => none
  | fuel + 1, cs, acc =>
    match parseVal fuel cs with
    | none => none
    | some (v, rest) =>
      match skipWs rest with
      | ',' :: r2 => parseElems fuel r2 (acc ++ [v])
      | ']' :: r2 => some (.arr (acc ++ [v]), r2)
      | _ => none

/-- Parse the members of a nonempty JSON object (duplicate keys last-wins). -/
def parseFields : Nat → List Char → List (String × JVal) → Option (JVal × List Char)
  | 0, _, _ => none
  | fuel + 1, cs, acc =>
    match skipWs cs with
    | '"' :: r1 =>
      (match parseStrChars r1 [] with
       | none => none
       | some (k, r2) =>
         match skipWs r2 with
         | ':' :: r3 =>
           (match parseVal fuel r3 with
            | none => none
            | some (v, r4) =>
              match skipWs r4 with
              | ',' :: r5 => parseFields fuel r5 (oinsert acc k v)
              | '\x7d' :: r5 => some (.obj (oinsert acc k v), r5)
              | _ => none)
         | _ => none)
    | _ => none

end

/-- `json.loads(s)`: parse one value surrounded by nothing but whitespace. -/
def jsonLoads (s : String) : Option JVal :=
  match parseVal (s.toList.length + 2) s.toList with
  | some (v, rest) => if skipWs rest = [] then some v else none
  | none => none

/-- A lowercase hexadecimal digit. -/
def hexDigitL (n : Nat) : Char :=
  if n < 10 then Char.ofNat (48 + n) else Char.ofNat (87 + n)

/-- A `\uXXXX` escape. -/
def u4 (n : Nat) : List Char :=
  ['\\', 'u', hexDigitL (n / 4096 % 16), hexDigitL (n / 256 % 16),
    hexDigitL (n / 16 % 16), hexDigitL (n % 16)]

/-- `json.dumps` escaping of one character (`ensure_ascii=True`). -/
def escChar (c : Char) : List Char :=
  if c = '"' then ['\\', '"']
  else if c = '\\' then ['\\', '\\']
  else if c = '\n' then ['\\', 'n']
  else if c = '\r' then ['\\', 'r']
  else if c = '\t' then ['\\', 't']
  else if c = '\x08' then ['\\', 'b']
  else if c = '\x0c' then ['\\', 'f']
  else if c.toNat < 32 ∨ 127 ≤ c.toNat then
    if c.toNat < 65536 then u4 c.toNat
    else u4 (55296 + (c.toNat - 65536) / 1024) ++ u4 (56320 + (c.toNat - 65536) % 1024)
  else [c]

/-- `json.dumps` of a string. -/
def strDump (s : String) : String :=
  String.mk ('"' :: s.toList.foldr (fun c acc => escChar c ++ acc) ['"'])

/-- Decimal rendering of a float value.  Only integral floats are printed
exactly (Python prints shortest-roundtrip IEEE notation, which no fixture in
this development ever serializes — the mock only dumps the integer-valued
sample). -/
def floatDump (q : Rat) : String :=
  if q.den = 1 then intDec q.num ++ ".0" else intDec q.num ++ "e" ++ natDec q.den

mutual

/-- `json.dumps(v)` with default options. -/
def jsonDumps : JVal → String
  | .null => "null"
  | .num .bool q => if decide (q = 0) then "false" else "true"
  | .num .int q => intDec q.num
  | .num .float q => floatDump q
  | .str s => strDump s
  | .arr xs => "[" ++ dumpsList xs ++ "]"
  | .obj fs => "\x7b" ++ dumpsFields fs ++ "\x7d"

/-- Array elements with the default `", "` separator. -/
def dumpsList : List JVal → String
  | [] => ""
  | [x] => jsonDumps x
  | x :: y :: rest => jsonDumps x ++ ", " ++ dumpsList (y :: rest)

/-- Object members with the default `", "` and `": "` separators. -/
def dumpsFields : List (String × JVal) → String
  | [] => ""
  | [(k, v)] => strDump k ++ ": " ++ jsonDumps v
  | (k, v) :: kv :: rest => strDump k ++ ": " ++ jsonDumps v ++ ", " ++ dumpsFields (kv :: rest)

end

/-! ## The script's configuration and fixtures -/

/-- The fields of the script's `CONFIG` dictionary that the verification
pipeline reads (the environment-variable names are plumbing outside the spec's
scope).  String-typed toggles are kept as strings, exactly as in the source,
and re-parsed with `.lower() == "true"` at every use, as the code does. -/
structure Config where
  analysis_file_name : String
  analysis_file_format : String
  required_parameters : List String
  validation_mode : String
  expected_values : List (String × JVal)
  range_config : String
  keywords : List String
  include_pr : String
  allow_empty_issues : String
  strict_issue_match : String
  verify_commit : String
  verify_parameters : String
  verify_issues_flag : String

/-- The script's `CONFIG` values. -/
def CONFIG : Config where
  analysis_file_name := "analysis_results.json"
  analysis_file_format := "json"
  required_parameters :=
    ["micro_batch_size_per_device_for_update", "micro_batch_size_per_device_for_experience"]
  validation_mode := "exact"
  expected_values :=
    [("micro_batch_size_per_device_for_update",
       .obj [("before", .num .int 4), ("after", .num .int 2)]),
     ("micro_batch_size_per_device_for_experience",
       .obj [("before", .num .int 8), ("after", .num .int 4)])]
  range_config :=
    "\x7b\"micro_batch_size_per_device_for_update\": \x7b\"min_before\": 1, \"max_before\": 16\x7d\x7d"
  keywords := ["oom", "memory", "显存"]
  include_pr := "false"
  allow_empty_issues := "false"
  strict_issue_match := "true"
  verify_commit := "true"
  verify_parameters := "true"
  verify_issues_flag := "true"

/-- The `parameter_changes` member of `SAMPLE_ANALYSIS`. -/
def sampleParamChanges : List (String × JVal) :=
  [("micro_batch_size_per_device_for_update",
     .obj [("before", .num .int 4), ("after", .num .int 2), ("line_number", .num .int 120)]),
   ("micro_batch_size_per_device_for_experience",
     .obj [("before", .num .int 8), ("after", .num .int 4), ("line_number", .num .int 130)])]

/-- The members of the script's bundled `SAMPLE_ANALYSIS` document. -/
def sampleKvs : List (String × JVal) :=
  [("target_commit_sha", .str "0f4b0c1e2a3b4c5d6e7f8a9b0c1d2e3f4a5b6c7d"),
   ("commit_author", .str "example-author"),
   ("commit_date", .str "2025-09-10"),
   ("parameter_changes", .obj sampleParamChanges),
   ("related_issue_number_list", .arr [.num .int 101, .num .int 102])]

/-- The bundled sample analysis document. -/
def SAMPLE_ANALYSIS : JVal := .obj sampleKvs

/-- Mock fixture for issue 101. -/
def mockIssue101 : JVal :=
  .obj [("number", .num .int 101), ("title", .str "oom on large batch"),
        ("body", .str "遇到 OOM 问题")]

/-- Mock fixture for issue 102. -/
def mockIssue102 : JVal :=
  .obj [("number", .num .int 102), ("title", .str "显存不足"),
        ("body", .str "memory usage spike")]

/-- Mock fixture for the issue listing. -/
def mockIssueList : JVal := .arr [mockIssue101, mockIssue102]

/-- The program's ambient state: the module-level `SAMPLE_ANALYSIS` constant the
mock branch reads, whether the `requests` module imported, and an oracle giving
the decoded reply of every live HTTP call (token, owner, repo, endpoint ↦
(success, payload)) — the live branch itself catches every transport fault and
returns such a pair, so an arbitrary pure oracle models it faithfully. -/
structure World where
  sample : JVal
  requestsAvail : Bool
  net : Option String → String → String → String → Bool × Option JVal

/-! ## The embedded program -/

/-- `github_api_request(endpoint, token, owner, repo, mock)`.  The mock branch
pattern-matches the endpoint's leading segment against four fixture shapes; the
`issues/<n>` branch runs `int(endpoint.split("/")[-1])`, which can raise
`ValueError`.  The live branch returns the oracle's reply (it never raises past
its boundary: HTTP 200 maps to `(True, body)`, everything else to
`(False, None)`). -/
def github_api_request (w : World) (endpoint : String) (token : Option String)
    (owner repo : String) (mock : Bool) : PyM (Bool × Option JVal) :=
  if mock then
    if strStarts endpoint "contents/" then
      .ok (true, some (.obj [("content", .str (String.mk (b64encodeBytes (utf8Enc (jsonDumps w.sample)))))]))
    else if strStarts endpoint "commits/" then
      pbind (pyIndex w.sample "target_commit_sha") fun sha =>
      pbind (pyIndex w.sample "commit_author") fun author =>
      pbind (pyIndex w.sample "commit_date") fun date =>
      .ok (true, some (.obj
        [("sha", sha),
         ("author", .obj [("login", author)]),
         ("commit", .obj [("author", .obj [("date", date)])])]))
    else if strStarts endpoint "issues?" then
      .ok (true, some mockIssueList)
    else if strStarts endpoint "issues/" then
      match pyIntParse (lastSeg endpoint) with
      | none => .error "ValueError"
      | some n =>
        if n = 101 then .ok (true, some mockIssue101)
        else if n = 102 then .ok (true, some mockIssue102)
        else .ok (false, none)
    else .ok (false, none)
  else if !w.requestsAvail then .ok (false, none)
  else .ok (w.net token owner repo endpoint)

/-- The body of the loader's `try` block after a successful fetch: take the
payload's `content` member, base64-decode it, UTF-8-decode the bytes, and
parse the text as the configured format (only `"json"` is implemented; any
other configured format yields `None`).  Every fault on the way — a non-dict
payload (`AttributeError` on `.get`), a non-string content (`TypeError` in
`b64decode`), a base64, UTF-8 or JSON decode error — is caught by the
surrounding `except` and yields `None`. -/
def decodeContent (cfg : Config) (fd : JVal) : Option JVal :=
  match pyGetD fd "content" (.str "") with
  | .error _ => none
  | .ok contentEnc =>
    match contentEnc with
    | .str enc =>
      (match b64decodeStr enc with
       | none => none
       | some bytes =>
         match utf8DecStr bytes with
         | none => none
         | some content =>
           if cfg.analysis_file_format = "json" then jsonLoads content
           else none)
    | _ => none

/-- `load_analysis_results`: fetch `contents/<name>`, then run the decode chain
of `decodeContent`; a failed or falsy fetch yields `None`. -/
def load_analysis_results (cfg : Config) (w : World) (token : Option String)
    (owner repo : String) (mock : Bool) : PyM (Option JVal) :=
  pbind (github_api_request w ("contents/" ++ cfg.analysis_file_name) token owner repo mock)
    fun res =>
      match res with
      | (success, file_data) =>
        if !success || !truthyOpt file_data then .ok none
        else
          match file_data with
          | none => .ok none
          | some fd => .ok (decodeContent cfg fd)

/-- `verify_commit_data`: SHA format check, commit fetch, author comparison
(login with fallback to the raw commit author name), date format check.  The
date check feeds `results.get("commit_date", "")` to `re.match`, which raises
`TypeError` on a non-string. -/
def verify_commit_data (w : World) (results : JVal) (token : Option String)
    (owner repo : String) (mock : Bool) : PyM Bool :=
  pbind (pyGet results "target_commit_sha") fun shaV =>
    match shaV with
    | .str s =>
      if !reMatchSha s then .ok false
      else
        pbind (github_api_request w ("commits/" ++ s) token owner repo mock) fun res =>
          match res with
          | (success, commit_data) =>
            if !success || !truthyOpt commit_data then .ok false
            else
              let cd := commit_data.getD .null
              pbind (pyGet results "commit_author") fun expectedAuthor =>
              pbind (pyGetD cd "author" (.obj [])) fun authorObj =>
              pbind (pyGet authorObj "login") fun actual0 =>
              pbind
                (if !pyTruthy actual0 then
                  pbind (pyGetD cd "commit" (.obj [])) fun c1 =>
                  pbind (pyGetD c1 "author" (.obj [])) fun c2 =>
                  pyGet c2 "name"
                else .ok actual0) fun actualAuthor =>
              if !pyEq expectedAuthor actualAuthor then .ok false
              else
                pbind (pyGetD results "commit_date" (.str "")) fun dateV =>
                pbind (reMatchDateV dateV) fun dateOk =>
                if !dateOk then .ok false else .ok true
    | _ => .ok false

/-- The inner field loop of the completeness pass
(`for field in ["before", "after", "line_number"]`). -/
def fieldLoop (change : JVal) : List String → PyM Bool
  | [] => .ok true
  | f :: rest =>
    pbind (pyIn f change) fun present =>
      if !present then .ok false else fieldLoop change rest

/-- The completeness pass over the required parameters. -/
def completenessLoop (param_changes : JVal) : List String → PyM Bool
  | [] => .ok true
  | p :: rest =>
    pbind (pyIn p param_changes) fun present =>
      if !present then .ok false
      else
        pbind (pyIndex param_changes p) fun change =>
        pbind (fieldLoop change ["before", "after", "line_number"]) fun ok =>
          if !ok then .ok false else completenessLoop param_changes rest

/-- The `exact` mode loop over the policy's expected values (short-circuit
order as in `actual.get("before") != expected["before"] or ...`). -/
def exactLoop (param_changes : JVal) : List (String × JVal) → PyM Bool
  | [] => .ok true
  | (p, expected) :: rest =>
    pbind (pyGetD param_changes p (.obj [])) fun actual =>
    pbind (pyGet actual "before") fun aB =>
    pbind (pyIndex expected "before") fun eB =>
      if !pyEq aB eB then .ok false
      else
        pbind (pyGet actual "after") fun aA =>
        pbind (pyIndex expected "after") fun eA =>
          if !pyEq aA eA then .ok false else exactLoop param_changes rest

/-- The `any` mode loop over the required parameters. -/
def anyLoop (param_changes : JVal) : List String → PyM Bool
  | [] => .ok true
  | p :: rest =>
    pbind (pyGetD param_changes p (.obj [])) fun actual =>
    pbind (pyGet actual "before") fun aB =>
    pbind (pyGet actual "after") fun aA =>
      if pyEq aB aA then .ok false else anyLoop param_changes rest

/-- The `range` mode loop over the parsed `RANGE_CONFIG` items
(`before_val is None` short-circuits before the chained comparison, whose
operands evaluate left to right). -/
def rangeLoop (param_changes : JVal) : List (String × JVal) → PyM Bool
  | [] => .ok true
  | (p, ranges) :: rest =>
    pbind (pyGetD param_changes p (.obj [])) fun actual =>
    pbind (pyGet actual "before") fun beforeVal =>
      match beforeVal with
      | .null => .ok false
      | bv =>
        pbind (pyIndex ranges "min_before") fun mn =>
        pbind (pyLE mn bv) fun le1 =>
          if !le1 then .ok false
          else
            pbind (pyIndex ranges "max_before") fun mx =>
            pbind (pyLE bv mx) fun le2 =>
              if !le2 then .ok false else rangeLoop param_changes rest

/-- `verify_parameter_changes`: completeness pass, then the mode selected by the
policy (`exact` / `any` / `range`, anything else fails); `range` re-parses the
`RANGE_CONFIG` JSON string at call time (`json.loads` raising on bad JSON,
`.items()` raising on a non-dict). -/
def verify_parameter_changes (cfg : Config) (results : JVal) : PyM Bool :=
  pbind (pyGetD results "parameter_changes" (.obj [])) fun param_changes =>
  pbind (completenessLoop param_changes cfg.required_parameters) fun ok =>
    if !ok then .ok false
    else
      if cfg.validation_mode = "exact" then exactLoop param_changes cfg.expected_values
      else if cfg.validation_mode = "any" then anyLoop param_changes cfg.required_parameters
      else if cfg.validation_mode = "range" then
        match jsonLoads cfg.range_config with
        | none => .error "JSONDecodeError"
        | some rc =>
          match rc with
          | .obj rcs => rangeLoop param_changes rcs
          | _ => .error "AttributeError"
      else .ok false

/-! ## Issue validation -/

/-- Python `set` membership (via `==`). -/
def setMemJ (x : JVal) (s : List JVal) : Bool := s.any fun y => pyEq x y

/-- Python `set.add`. -/
def sadd (s : List JVal) (x : JVal) : List JVal := if setMemJ x s then s else s ++ [x]

/-- Python `set(list)`: duplicates collapse. -/
def pySetOfList (l : List JVal) : List JVal := l.foldl sadd []

/-- Python `set == set`: mutual membership. -/
def pySetEq (a b : List JVal) : Bool :=
  (a.all fun x => setMemJ x b) && (b.all fun y => setMemJ y a)

/-- One iteration of the item loop inside `get_relevant_issues`: skip pull
requests unless opted in, then add the item's number to the set when its
title+body (lower-cased) contains a keyword.  A non-dict item raises
(`item.get` on a key-string or character when iterating a dict or string, `+`
on a non-string title/body). -/
def processItem (cfg : Config) (acc : List JVal) (item : JVal) : PyM (List JVal) :=
  pbind (pyIn "pull_request" item) fun hasPR =>
    if !decide (lowerStr cfg.include_pr = "true") && hasPR then .ok acc
    else
      pbind (pyGet item "number") fun number =>
      pbind (pyGetD item "title" (.str "")) fun titleV =>
      pbind (pyGet item "body") fun bodyV =>
        let bodyOr := if pyTruthy bodyV then bodyV else .str ""
        match titleV, bodyOr with
        | .str t, .str b =>
          let text := lowerStr (t ++ " " ++ b)
          if cfg.keywords.any (fun kw => containsSub (lowerStr kw).toList text.toList) then
            .ok (sadd acc number)
          else .ok acc
        | _, _ => .error "TypeError"

/-- Fold `processItem` over the items of one page. -/
def itemsFold (cfg : Config) : List JVal → List JVal → PyM (List JVal)
  | [], acc => .ok acc
  | item :: rest, acc =>
    pbind (processItem cfg acc item) fun acc' => itemsFold cfg rest acc'

/-- `for item in data`: lists yield their elements, dicts their keys, strings
their characters; anything else is not iterable (`TypeError`). -/
def processItems (cfg : Config) (data : JVal) (acc : List JVal) : PyM (List JVal) :=
  match data with
  | .arr items => itemsFold cfg items acc
  | .obj fs => itemsFold cfg (fs.map fun kv => .str kv.1) acc
  | .str s => itemsFold cfg (s.toList.map fun c => .str (String.mk [c])) acc
  | _ => .error "TypeError"

/-- The issue-listing endpoint for a page number
(`f"issues?state=all&per_page=100&page={page}"`). -/
def issuesEndpoint (page : Nat) : String :=
  "issues?state=all&per_page=100&page=" ++ natDec page

/-- `isinstance(data, list) and len(data) < 100`. -/
def isShortList : JVal → Bool
  | .arr xs => decide (xs.length < 100)
  | _ => false

/-- The `while True` pagination loop of `get_relevant_issues`, indexed by fuel;
`none` means the fuel ran out before the loop ended (the loop would still be
running), modelling possible divergence. -/
def issuesLoop (cfg : Config) (w : World) (token : Option String) (owner repo : String)
    (mock : Bool) : Nat → Nat → List JVal → Option (PyM (List JVal))
  | 0, _, _ => none
  | fuel + 1, page, issues =>
    match github_api_request w (issuesEndpoint page) token owner repo mock with
    | .error e => some (.error e)
    | .ok (success, data) =>
      if !success || !truthyOpt data then some (.ok issues)
      else
        let d := data.getD .null
        match processItems cfg d issues with
        | .error e => some (.error e)
        | .ok issues' =>
          if isShortList d then some (.ok issues')
          else issuesLoop cfg w token owner repo mock fuel (page + 1) issues'

/-- `get_relevant_issues`: paginate the issue listing and collect the numbers of
keyword-matching issues. -/
def get_relevant_issues (cfg : Config) (w : World) (token : Option String)
    (owner repo : String) (mock : Bool) (fuel : Nat) : Option (PyM (List JVal)) :=
  issuesLoop cfg w token owner repo mock fuel 1 []

/-- `str(n)` for the `int`/`bool` numbers that reach the `issues/{n}` f-string
(`True` renders as `"True"`). -/
def pyNumStr (t : NumTag) (q : Rat) : String :=
  match t with
  | .bool => if decide (q = 0) then "False" else "True"
  | .int => intDec q.num
  | .float => floatDump q

/-- The per-issue content loop of `verify_issues`: each listed number must be a
positive `int` (Python `bool` qualifies via `isinstance(x, int)`), its issue
must be fetchable, and its lower-cased title+body must contain a keyword. -/
def issueContentLoop (cfg : Config) (w : World) (token : Option String)
    (owner repo : String) (mock : Bool) : List JVal → PyM Bool
  | [] => .ok true
  | x :: rest =>
    match x with
    | .num t q =>
      if t = NumTag.float then .ok false
      else if q ≤ 0 then .ok false
      else
        pbind (github_api_request w ("issues/" ++ pyNumStr t q) token owner repo mock)
          fun res =>
          match res with
          | (success, issue_data) =>
            if !success || !truthyOpt issue_data then .ok false
            else
              let idt := issue_data.getD .null
              pbind (pyGetD idt "title" (.str "")) fun titleV =>
              pbind (pyGet idt "body") fun bodyV =>
                let bodyOr := if pyTruthy bodyV then bodyV else .str ""
                match titleV, bodyOr with
                | .str t2, .str b =>
                  let text := lowerStr (t2 ++ " " ++ b)
                  if !cfg.keywords.any
                      (fun kw => containsSub (lowerStr kw).toList text.toList) then
                    .ok false
                  else issueContentLoop cfg w token owner repo mock rest
                | _, _ => .error "TypeError"
    | _ => .ok false

/-- `verify_issues`: list-shape and emptiness checks, the per-issue content
loop, then reconciliation of the document's issue set against the independently
computed expected set; a mismatch fails only under `STRICT_ISSUE_MATCH`. -/
def verify_issues (cfg : Config) (w : World) (results : JVal) (token : Option String)
    (owner repo : String) (mock : Bool) (fuel : Nat) : Option (PyM Bool) :=
  match pyGetD results "related_issue_number_list" (.arr []) with
  | .error e => some (.error e)
  | .ok il =>
    match il with
    | .arr issue_list =>
      if issue_list.length = 0 ∧ ¬ lowerStr cfg.allow_empty_issues = "true" then
        some (.ok false)
      else
        match issueContentLoop cfg w token owner repo mock issue_list with
        | .error e => some (.error e)
        | .ok contentOk =>
          if !contentOk then some (.ok false)
          else
            match get_relevant_issues cfg w token owner repo mock fuel with
            | none => none
            | some (.error e) => some (.error e)
            | some (.ok expected) =>
              let provided := pySetOfList issue_list
              if !pySetEq provided expected then
                if lowerStr cfg.strict_issue_match = "true" then some (.ok false)
                else some (.ok true)
              else some (.ok true)
    | _ => some (.ok false)

/-! ## The driver -/

/-- Python truthiness of the optional token string (`not token`). -/
def tokenTruthy : Option String → Bool
  | none => false
  | some s => decide (¬ s = "")

/-- The check section of `main` once a document is loaded: run every enabled
validator, aggregate with logical and, exit 0 on overall pass and 1 otherwise.
An uncaught exception from a validator aborts the run (`Except.error`). -/
def runChecks (cfg : Config) (w : World) (results : JVal) (token : Option String)
    (owner repo : String) (mock : Bool) (fuel : Nat) : Option (PyM Nat) :=
  match (if lowerStr cfg.verify_commit = "true" then
          verify_commit_data w results token owner repo mock
         else .ok true) with
  | .error e => some (.error e)
  | .ok okCommit =>
    match (if lowerStr cfg.verify_parameters = "true" then
            verify_parameter_changes cfg results
           else .ok true) with
    | .error e => some (.error e)
    | .ok okParams =>
      match (if lowerStr cfg.verify_issues_flag = "true" then
              verify_issues cfg w results token owner repo mock fuel
             else some (.ok true)) with
      | none => none
      | some (.error e) => some (.error e)
      | some (.ok okIssues) =>
        some (.ok (if okCommit && okParams && okIssues then 0 else 1))

/-- `main`: select offline mode (a falsy token forces it), require `requests` in
online mode, load the document (exit 1 on a missing or falsy document), then
run the enabled checks.  The result is the process exit code, `none` when the
pagination loop outlives the supplied fuel.  (Named `mainProg` because Lean
reserves `main` for executable entry points.) -/
def mainProg (cfg : Config) (w : World) (token : Option String) (owner repo : String)
    (mockFlag : Bool) (fuel : Nat) : Option (PyM Nat) :=
  let mock := mockFlag || !tokenTruthy token
  if !mock && !w.requestsAvail then some (.ok 1)
  else
    match load_analysis_results cfg w token owner repo mock with
    | .error e => some (.error e)
    | .ok r =>
      if !truthyOpt r then some (.ok 1)
      else runChecks cfg w (r.getD .null) token owner repo mock fuel

/-! ## Concrete worlds and documents used by the claims -/

/-- A live-network oracle that answers nothing (offline runs never consult it). -/
def deadNet : Option String → String → String → String → Bool × Option JVal :=
  fun _ _ _ _ => (false, none)

/-- The world of the script at rest: the bundled sample, no `requests`, no net. -/
def wSample : World := ⟨SAMPLE_ANALYSIS, false, deadNet⟩

/-- `SAMPLE_ANALYSIS` with `commit_author` altered to an unrelated string. -/
def MUTATED_SAMPLE : JVal :=
  .obj [("target_commit_sha", .str "0f4b0c1e2a3b4c5d6e7f8a9b0c1d2e3f4a5b6c7d"),
        ("commit_author", .str "totally-different-person"),
        ("commit_date", .str "2025-09-10"),
        ("parameter_changes", .obj sampleParamChanges),
        ("related_issue_number_list", .arr [.num .int 101, .num .int 102])]

/-- The world after editing the module constant `SAMPLE_ANALYSIS` itself: the
mock fixture now serves (and echoes) the mutated document. -/
def wMutated : World := ⟨MUTATED_SAMPLE, false, deadNet⟩

/-- A document identical to the sample except that `commit_date` holds the
integer `5` instead of a string. -/
def BAD_DATE_DOC : JVal :=
  .obj [("target_commit_sha", .str "0f4b0c1e2a3b4c5d6e7f8a9b0c1d2e3f4a5b6c7d"),
        ("commit_author", .str "example-author"),
        ("commit_date", .num .int 5),
        ("parameter_changes", .obj sampleParamChanges),
        ("related_issue_number_list", .arr [.num .int 101, .num .int 102])]

/-- Parameter changes whose values are the floats `4.0→2.0` / `8.0→4.0`. -/
def floatParamChanges : List (String × JVal) :=
  [("micro_batch_size_per_device_for_update",
     .obj [("before", .num .float 4), ("after", .num .float 2), ("line_number", .num .int 120)]),
   ("micro_batch_size_per_device_for_experience",
     .obj [("before", .num .float 8), ("after", .num .float 4), ("line_number", .num .int 130)])]

/-- A document carrying the float-valued parameter changes. -/
def FLOAT_DOC : JVal := .obj [("parameter_changes", .obj floatParamChanges)]

/-- `CONFIG` switched to `range` validation mode. -/
def cfgRange : Config := { CONFIG with validation_mode := "range" }

/-- The parse of `CONFIG.range_config`. -/
def rangeRcs : List (String × JVal) :=
  [("micro_batch_size_per_device_for_update",
     .obj [("min_before", .num .int 1), ("max_before", .num .int 16)])]

/-- `CONFIG` with a configured document format other than JSON. -/
def cfgYaml : Config := { CONFIG with analysis_file_format := "yaml" }

/-- A document listing only issue 101. -/
def DOC_ISSUE_101 : JVal :=
  .obj [("related_issue_number_list", .arr [.num .int 101])]

/-- A live world whose issue listing returns a truthy page that is a dict, not
a list. -/
def wBadPage : World :=
  ⟨SAMPLE_ANALYSIS, true, fun _ _ _ _ => (true, some (.obj [("note", .num .int 1)]))⟩

/-! ## Spec-side predicates (stated from the specification's wording, to be
compared against what the code computes) -/

/-- A string of exactly forty hexadecimal characters (case-insensitive) — the
set the spec says the SHA format check accepts. -/
def isHex40 (s : String) : Prop :=
  s.toList.length = 40 ∧ ∀ c ∈ s.toList, isHexCI c = true

/-- Modelled from the spec: "strict typed equality with no coercion" on scalar
parameter values — numbers are equal only when both the numeric type tag and
the value agree (so an integer expectation is not met by an equal-valued
float).  Compared against the code's `pyEq`. -/
def typedValueEq : JVal → JVal → Bool
  | .null, .null => true
  | .num t q, .num t' q' => decide (t = t') && decide (q = q')
  | .str s, .str t => decide (s = t)
  | _, _ => false

/-- The document's recorded value for field `k` of parameter `p` (`null` when
the parameter or field is absent). -/
def docField (pcs : List (String × JVal)) (p k : String) : JVal :=
  match olookup pcs p with
  | some (.obj fs) => (olookup fs k).getD .null
  | _ => .null

/-- Field `k` of a policy entry (`null` when absent or the entry is not a
record). -/
def expField (e : JVal) (k : String) : JVal :=
  match e with
  | .obj es => (olookup es k).getD .null
  | _ => .null

/-- Every expected-values policy entry is a record carrying `before`/`after`. -/
def expShapeOk (evs : List (String × JVal)) : Bool :=
  evs.all fun pe =>
    match pe.2 with
    | .obj es => (olookup es "before").isSome && (olookup es "after").isSome
    | _ => false

/-- For every policy entry, the document's parameter record (when present) is a
dict — the shape on which `.get` is defined. -/
def exactDocOk (pcs : List (String × JVal)) (evs : List (String × JVal)) : Bool :=
  evs.all fun pe =>
    match olookup pcs pe.1 with
    | none => true
    | some (.obj _) => true
    | some _ => false

/-- The numeric value of a scalar, if it is a number. -/
def numOf : JVal → Option Rat
  | .num _ q => some q
  | _ => none

/-- The spec's acceptance condition for one ranged parameter: a numeric
`before` value lying within the inclusive rational interval
`[min_before, max_before]`; an absent or null `before` fails. -/
def rangeHit (pcs : List (String × JVal)) (pr : String × JVal) : Bool :=
  match numOf (docField pcs pr.1 "before"), numOf (expField pr.2 "min_before"),
      numOf (expField pr.2 "max_before") with
  | some q, some mn, some mx => decide (mn ≤ q ∧ q ≤ mx)
  | _, _, _ => false

/-- Every range-policy entry is a record with numeric `min_before`/`max_before`. -/
def rangeCfgOk (rcs : List (String × JVal)) : Bool :=
  rcs.all fun pr =>
    match pr.2 with
    | .obj rs =>
      (match olookup rs "min_before" with
       | some (.num _ _) => true
       | _ => false) &&
      (match olookup rs "max_before" with
       | some (.num _ _) => true
       | _ => false)
    | _ => false

/-- For every range-policy entry, the document's parameter record (when
present) is a dict whose `before` (when present) is numeric or null. -/
def rangeDocOk (pcs : List (String × JVal)) (rcs : List (String × JVal)) : Bool :=
  rcs.all fun pr =>
    match olookup pcs pr.1 with
    | none => true
    | some (.obj fs) =>
      (match olookup fs "before" with
       | none => true
       | some .null => true
       | some (.num _ _) => true
       | some _ => false)
    | some _ => false

/-! ## Characterizations of the parameter-validator loops -/

theorem exactLoop_eq (pcs : List (String × JVal)) (evs : List (String × JVal))
    (hshape : expShapeOk evs = true) (hdoc : exactDocOk pcs evs = true) :
    exactLoop (.obj pcs) evs =
      .ok (evs.all fun pe =>
        pyEq (docField pcs pe.1 "before") (expField pe.2 "before") &&
        pyEq (docField pcs pe.1 "after") (expField pe.2 "after")) := by
  induction evs with
  | nil => rfl
  | cons pe rest ih =>
    obtain ⟨p, e⟩ := pe
    rw [expShapeOk, List.all_cons, Bool.and_eq_true] at hshape
    rw [exactDocOk, List.all_cons, Bool.and_eq_true] at hdoc
    obtain ⟨he, hrest⟩ := hshape
    obtain ⟨hd, hdrest⟩ := hdoc
    cases e with
    | obj es =>
      simp only [Bool.and_eq_true, Option.isSome_iff_exists] at he
      obtain ⟨⟨bv, hbv⟩, av, hav⟩ := he
      have hact : ∃ fs, (olookup pcs p).getD (.obj []) = .obj fs ∧
          ∀ k, docField pcs p k = (olookup fs k).getD .null := by
        rcases hpc : olookup pcs p with _ | v
        · exact ⟨[], rfl, fun k => by simp [docField, hpc, olookup]⟩
        · cases v <;> simp [hpc] at hd ⊢
          exact fun k => by simp [docField, hpc]
      obtain ⟨fs, hfs, hdf⟩ := hact
      rw [List.all_cons]
      simp only [exactLoop, pyGetD, hfs, pbind_ok, pyGet, pyIndex, hbv, hav]
      rw [← hdf "before", ← hdf "after"]
      have hef : ∀ k v, olookup es k = some v → expField (.obj es) k = v := by
        intro k v hv; simp [expField, hv]
      rw [show bv = expField (.obj es) "before" from (hef _ _ hbv).symm,
          show av = expField (.obj es) "after" from (hef _ _ hav).symm]
      cases hb : pyEq (docField pcs p "before") (expField (.obj es) "before") with
      | false => simp
      | true =>
        cases ha : pyEq (docField pcs p "after") (expField (.obj es) "after") with
        | false => simp
        | true => simpa using ih hrest hdrest
    | null => simp at he
    | num t q => simp at he
    | str s => simp at he
    | arr xs => simp at he

theorem rangeLoop_eq (pcs : List (String × JVal)) (rcs : List (String × JVal))
    (hcfg : rangeCfgOk rcs = true) (hdoc : rangeDocOk pcs rcs = true) :
    rangeLoop (.obj pcs) rcs = .ok (rcs.all (rangeHit pcs)) := by
  induction rcs with
  | nil => rfl
  | cons pr rest ih =>
    obtain ⟨p, e⟩ := pr
    rw [rangeCfgOk, List.all_cons, Bool.and_eq_true] at hcfg
    rw [rangeDocOk, List.all_cons, Bool.and_eq_true] at hdoc
    obtain ⟨he, hrest⟩ := hcfg
    obtain ⟨hd, hdrest⟩ := hdoc
    cases e with
    | obj rs =>
      simp only [Bool.and_eq_true] at he
      obtain ⟨hmn, hmx⟩ := he
      rcases hmn' : olookup rs "min_before" with _ | mnv
      · rw [hmn'] at hmn; simp at hmn
      rcases hmx' : olookup rs "max_before" with _ | mxv
      · rw [hmx'] at hmx; simp at hmx
      rw [hmn'] at hmn; rw [hmx'] at hmx
      cases mnv <;> simp at hmn
      case num tm mn =>
      cases mxv <;> simp at hmx
      case num tx mx =>
      have hact : ∃ fs, (olookup pcs p).getD (.obj []) = .obj fs ∧
          ∀ k, docField pcs p k = (olookup fs k).getD .null := by
        rcases hpc : olookup pcs p with _ | v
        · exact ⟨[], rfl, fun k => by simp [docField, hpc, olookup]⟩
        · cases v <;> simp [hpc] at hd ⊢
          exact fun k => by simp [docField, hpc]
      obtain ⟨fs, hfs, hdf⟩ := hact
      have hbshape : (match olookup fs "before" with
          | none => true
          | some JVal.null => true
          | some (.num _ _) => true
          | some _ => false) = true := by
        rcases hpc : olookup pcs p with _ | v
        · simp [hpc, olookup] at hfs; subst hfs; simp [olookup]
        · rw [hpc] at hd hfs
          cases v <;> simp at hd hfs <;> try simp [hfs] at hd ⊢
          subst hfs; exact hd
      rw [List.all_cons]
      simp only [rangeLoop, pyGetD, hfs, pbind_ok, pyGet]
      have hexp : ∀ k v, olookup rs k = some v → expField (.obj rs) k = v := by
        intro k v hv; simp [expField, hv]
      rcases hbv : olookup fs "before" with _ | bv
      · -- absent: .get gives None
        simp only [hbv, Option.getD_none]
        have : rangeHit pcs (p, .obj rs) = false := by
          simp [rangeHit, hdf "before", hbv, numOf]
        rw [this]; simp
      · rw [hbv] at hbshape
        cases bv with
        | null =>
          simp only [Option.getD_some]
          have : rangeHit pcs (p, .obj rs) = false := by
            simp [rangeHit, hdf "before", hbv, numOf]
          rw [this]; simp
        | num tq q =>
          simp only [Option.getD_some, pyIndex, hmn', pyLE, pbind_ok]
          have hhit : rangeHit pcs (p, .obj rs) = (decide (mn ≤ q) && decide (q ≤ mx)) := by
            simp [rangeHit, hdf "before", hbv, numOf, hexp _ _ hmn', hexp _ _ hmx',
              Bool.decide_and]
          cases h1 : decide (mn ≤ q) with
          | false => rw [hhit, h1]; simp
          | true =>
            simp only [h1, Bool.not_true, Bool.false_eq_true, if_false, hmx', pyLE, pbind_ok]
            cases h2 : decide (q ≤ mx) with
            | false => rw [hhit, h1, h2]; simp
            | true =>
              rw [hhit, h1, h2]
              simpa using ih hrest hdrest
        | str s => simp at hbshape
        | arr xs => simp at hbshape
        | obj o => simp at hbshape
    | null => simp at he
    | num t q => simp at he
    | str s => simp at he
    | arr xs => simp at he

/-! ## Characterization of the pagination loop -/

/-- The string content of a scalar (empty for non-strings). -/
def strOfD : JVal → String
  | .str s => s
  | _ => ""

/-- An issue item `processItem` handles without a fault: a dict that is either
skipped as a pull request, or carries a string (or absent) title and a string
(or falsy) body. -/
def goodItemB (cfg : Config) (item : JVal) : Bool :=
  match item with
  | .obj fs =>
    (!decide (lowerStr cfg.include_pr = "true") &&
        fs.any fun kv => decide (kv.1 = "pull_request")) ||
    ((match (olookup fs "title").getD (.str "") with
      | .str _ => true
      | _ => false) &&
     (match (if pyTruthy ((olookup fs "body").getD .null) then
               (olookup fs "body").getD .null
             else .str "") with
      | .str _ => true
      | _ => false))
  | _ => false

/-- What `processItem` adds to the set for a fault-free item: nothing for a
skipped pull request or a keyword-less item, else the item's `number`. -/
def itemEffect (cfg : Config) (acc : List JVal) (item : JVal) : List JVal :=
  match item with
  | .obj fs =>
    if !decide (lowerStr cfg.include_pr = "true") &&
        (fs.any fun kv => decide (kv.1 = "pull_request")) then acc
    else
      let t := strOfD ((olookup fs "title").getD (.str ""))
      let b := strOfD (if pyTruthy ((olookup fs "body").getD .null) then
                         (olookup fs "body").getD .null
                       else .str "")
      let text := lowerStr (t ++ " " ++ b)
      if cfg.keywords.any (fun kw => containsSub (lowerStr kw).toList text.toList) then
        sadd acc ((olookup fs "number").getD .null)
      else acc
  | _ => acc

theorem processItem_good (cfg : Config) (acc : List JVal) (item : JVal)
    (h : goodItemB cfg item = true) :
    processItem cfg acc item = .ok (itemEffect cfg acc item) := by
  cases item with
  | obj fs =>
    rw [goodItemB, Bool.or_eq_true] at h
    simp only [processItem, pyIn, pbind_ok, itemEffect]
    cases hskip : (!decide (lowerStr cfg.include_pr = "true") &&
        fs.any fun kv => decide (kv.1 = "pull_request")) with
    | true => simp [hskip]
    | false =>
      rw [hskip] at h
      simp only [Bool.false_eq_true, false_or, Bool.and_eq_true] at h
      obtain ⟨ht, hb⟩ := h
      simp only [Bool.false_eq_true, if_false, pyGet, pyGetD, pbind_ok]
      rcases htv : (olookup fs "title").getD (.str "") with _ | _ | t | _ | _ <;>
        rw [htv] at ht <;> simp at ht
      rcases hbv : (if pyTruthy ((olookup fs "body").getD .null) then
          (olookup fs "body").getD .null else .str "") with _ | _ | b | _ | _ <;>
        rw [hbv] at hb <;> simp at hb
      simp only [strOfD]
      split <;> rfl
  | null => simp [goodItemB] at h
  | num t q => simp [goodItemB] at h
  | str s => simp [goodItemB] at h
  | arr xs => simp [goodItemB] at h

theorem itemsFold_good (cfg : Config) (items : List JVal)
    (h : ∀ item ∈ items, goodItemB cfg item = true) :
    ∀ acc, itemsFold cfg items acc = .ok (items.foldl (itemEffect cfg) acc) := by
  induction items with
  | nil => intro acc; rfl
  | cons item rest ih =>
    intro acc
    rw [itemsFold, processItem_good cfg acc item (h item (by simp)), pbind_ok,
      List.foldl_cons]
    exact ih (fun i hi => h i (by simp [hi])) _

/-- A page reply the loop treats as absent (`not success or not data`). -/
def pageAbsent (r : Bool × Option JVal) : Bool := !r.1 || !truthyOpt r.2

/-- A successful full page: a list of 100 or more fault-free items (the loop
processes it and advances). -/
def fullGoodPage (cfg : Config) (r : Bool × Option JVal) : Bool :=
  r.1 && (match r.2 with
          | some (.arr items) => decide (100 ≤ items.length) && items.all (goodItemB cfg)
          | _ => false)

/-- A page on which the loop stops cleanly: an absent/falsy reply, or a
fault-free list shorter than the page size of 100. -/
def stopGoodPage (cfg : Config) (r : Bool × Option JVal) : Bool :=
  pageAbsent r || (match r.2 with
                   | some (.arr items) =>
                     decide (items.length < 100) && items.all (goodItemB cfg)
                   | _ => false)

/-- The issue numbers one page reply contributes to the collected set. -/
def pageContrib (cfg : Config) (acc : List JVal) (r : Bool × Option JVal) : List JVal :=
  if pageAbsent r then acc
  else
    match r.2 with
    | some (.arr items) => items.foldl (itemEffect cfg) acc
    | _ => acc

/-- The set collected from `m` consecutive pages starting at `start`. -/
def contribRange (cfg : Config) (pages : Nat → Bool × Option JVal) :
    Nat → Nat → List JVal → List JVal
  | _, 0, acc => acc
  | start, m + 1, acc =>
    contribRange cfg pages (start + 1) m (pageContrib cfg acc (pages start))

theorem issuesLoop_run (cfg : Config) (w : World) (token : Option String)
    (owner repo : String) (mock : Bool) (pages : Nat → Bool × Option JVal)
    (hpages : ∀ n, github_api_request w (issuesEndpoint n) token owner repo mock =
      .ok (pages n)) :
    ∀ (k stt acc fuel),
      (∀ n, stt ≤ n → n < stt + k → fullGoodPage cfg (pages n) = true) →
      stopGoodPage cfg (pages (stt + k)) = true →
      k < fuel →
      issuesLoop cfg w token owner repo mock fuel stt acc =
        some (.ok (contribRange cfg pages stt (k + 1) acc)) := by
  intro k
  induction k with
  | zero =>
    intro stt acc fuel _ hstop hfuel
    obtain ⟨f, rfl⟩ : ∃ f, fuel = f + 1 := ⟨fuel - 1, by omega⟩
    rw [Nat.add_zero] at hstop
    rcases hps : pages stt with ⟨succ, dat⟩
    rw [hps] at hstop
    rw [issuesLoop, hpages stt, hps]
    have hcr : contribRange cfg pages stt 1 acc = pageContrib cfg acc (pages stt) := rfl
    rw [hcr, hps]
    rw [stopGoodPage, Bool.or_eq_true] at hstop
    cases habs : pageAbsent (succ, dat) with
    | true =>
      have habs' : (!succ || !truthyOpt dat) = true := habs
      simp only [habs', if_true]
      simp [pageContrib, habs]
    | false =>
      rw [habs] at hstop
      simp only [Bool.false_eq_true, false_or] at hstop
      rcases dat with _ | d
      · simp at hstop
      rcases d with _ | _ | _ | items | _ <;> simp at hstop
      obtain ⟨hlen, hgood⟩ := hstop
      have habs' : (!succ || !truthyOpt (some (.arr items))) = false := habs
      simp only [habs', Bool.false_eq_true, if_false, Option.getD_some]
      rw [processItems,
        itemsFold_good cfg items (by simpa [List.all_eq_true] using hgood) acc]
      have hshort : isShortList (.arr items) = true := by
        simp [isShortList, hlen]
      simp only [hshort, if_true]
      simp [pageContrib, habs]
  | succ k ih =>
    intro stt acc fuel hfull hstop hfuel
    obtain ⟨f, rfl⟩ : ∃ f, fuel = f + 1 := ⟨fuel - 1, by omega⟩
    have hthis : fullGoodPage cfg (pages stt) = true :=
      hfull stt (Nat.le_refl stt) (by omega)
    rcases hps : pages stt with ⟨succ, dat⟩
    rw [hps] at hthis
    rw [fullGoodPage, Bool.and_eq_true] at hthis
    obtain ⟨hsucc, hrest⟩ := hthis
    rcases dat with _ | d
    · simp at hrest
    rcases d with _ | _ | _ | items | _ <;> simp at hrest
    obtain ⟨hlen, hgood⟩ := hrest
    rw [issuesLoop, hpages stt, hps]
    have hsucc' : succ = true := hsucc
    have habs : pageAbsent (succ, some (.arr items)) = false := by
      have hne : items ≠ [] := by
        intro hnil; rw [hnil] at hlen; simp at hlen
      simp [pageAbsent, hsucc', truthyOpt, pyTruthy, List.isEmpty_eq_true, hne]
    have habs' : (!succ || !truthyOpt (some (.arr items))) = false := habs
    simp only [habs', Bool.false_eq_true, if_false, Option.getD_some]
    rw [processItems,
      itemsFold_good cfg items (by simpa [List.all_eq_true] using hgood) acc]
    have hshort : isShortList (.arr items) = false := by
      simp [isShortList]; omega
    simp only [hshort, Bool.false_eq_true, if_false]
    have hcr : contribRange cfg pages stt (k + 1 + 1) acc =
        contribRange cfg pages (stt + 1) (k + 1) (pageContrib cfg acc (pages stt)) := rfl
    rw [hcr, hps]
    have hpc : pageContrib cfg acc (succ, some (.arr items)) =
        items.foldl (itemEffect cfg) acc := by
      rw [pageContrib, habs]; simp
    rw [hpc]
    exact ih (stt + 1) _ f
      (fun n h1 h2 => hfull n (by omega) (by omega))
      (by rw [show stt + 1 + k = stt + (k + 1) from by omega]; exact hstop)
      (by omega)

/-! ## Claim theorems -/

/-- Claim C10: in mock mode the adapter's reply is a pure function of the
endpoint alone — for any endpoint and any two credential triples (token, owner,
repo), `github_api_request` returns identical results, so the fixture is
completely independent of the credentials. -/
theorem c10_mock_ignores_credentials (w : World) (endpoint : String)
    (t1 t2 : Option String) (o1 o2 r1 r2 : String) :
    github_api_request w endpoint t1 o1 r1 true =
      github_api_request w endpoint t2 o2 r2 true := rfl

/-- Claim C3 (code bug): on a document identical to the bundled sample except
that `commit_date` holds the integer `5`, the commit validator raises an
uncaught `TypeError` (from `re.match` applied to a non-string) instead of
converting the fault to a diagnostic plus `False` — contradicting the spec's
propagation policy that no fault crosses a validator boundary unconverted. -/
theorem c3_uncaught_type_fault :
    verify_commit_data wSample BAD_DATE_DOC none "example-owner" "example-repo" true =
      .error "TypeError" := rfl

set_option maxRecDepth 4000 in
set_option maxHeartbeats 2000000 in
/-- Claim C1: in offline (mock) mode with the bundled configuration (all three
validators enabled), loading the bundled sample document and running the full
pipeline yields pass for every validator and the process exits with code 0 —
for every world holding the bundled sample, any credentials, and any positive
pagination fuel. -/
theorem c1_offline_pipeline_pass (w : World) (hs : w.sample = SAMPLE_ANALYSIS)
    (token : Option String) (owner repo : String) (fuel : Nat) (hfuel : 1 ≤ fuel) :
    mainProg CONFIG w token owner repo true fuel = some (.ok 0) := by
  obtain ⟨sample, ra, net⟩ := w
  have hs' : sample = SAMPLE_ANALYSIS := hs
  subst hs'
  obtain ⟨f, rfl⟩ : ∃ f, fuel = f + 1 := ⟨fuel - 1, by omega⟩
  rfl

/-- Witness for C1 at the concrete resting world. -/
theorem c1_offline_pipeline_pass_witness :
    mainProg CONFIG wSample none "example-owner" "example-repo" true 1 = some (.ok 0) :=
  c1_offline_pipeline_pass wSample rfl none "example-owner" "example-repo" 1 (by decide)

set_option maxRecDepth 4000 in
set_option maxHeartbeats 2000000 in
/-- Counterexample to claim C2 as stated: altering the sample document's
`commit_author` to an unrelated string means editing the module constant
`SAMPLE_ANALYSIS`, but the mock commit endpoint echoes that same constant, so
re-running the pipeline offline still passes the commit validator and exits
with code 0 — the commit validator does not fail and the exit is not nonzero. -/
theorem c2_mutated_counterexample :
    mainProg CONFIG wMutated none "example-owner" "example-repo" true 1 = some (.ok 0) ∧
    verify_commit_data wMutated MUTATED_SAMPLE none "example-owner" "example-repo" true =
      .ok true := ⟨rfl, rfl⟩

set_option maxRecDepth 4000 in
set_option maxHeartbeats 2000000 in
/-- Claim C2 as amended: when the checks run offline on a document equal to the
sample except for a `commit_author` altered to an unrelated string, while the
mock fixture still serves the original sample, the commit validator fails, the
parameter and issue validators still individually pass, and the aggregated
check section exits 1. -/
theorem c2_mutated_amended :
    verify_commit_data wSample MUTATED_SAMPLE none "example-owner" "example-repo" true =
      .ok false ∧
    verify_parameter_changes CONFIG MUTATED_SAMPLE = .ok true ∧
    verify_issues CONFIG wSample MUTATED_SAMPLE none "example-owner" "example-repo" true 1 =
      some (.ok true) ∧
    runChecks CONFIG wSample MUTATED_SAMPLE none "example-owner" "example-repo" true 1 =
      some (.ok 1) := ⟨rfl, rfl, rfl, rfl⟩

/-- Counterexample to claim C4 as stated: Python's `$` matches just before a
trailing newline, so `re.match(r"^[a-f0-9]{40}$", s, re.I)` accepts the
41-character string of forty hex digits followed by `"\n"`, which does not
consist of exactly forty hexadecimal characters. -/
theorem c4_sha_newline_counterexample :
    reMatchSha "0f4b0c1e2a3b4c5d6e7f8a9b0c1d2e3f4a5b6c7d\n" = true ∧
    "0f4b0c1e2a3b4c5d6e7f8a9b0c1d2e3f4a5b6c7d\n".toList.length = 41 ∧
    ¬ isHex40 "0f4b0c1e2a3b4c5d6e7f8a9b0c1d2e3f4a5b6c7d\n" := by
  refine ⟨rfl, rfl, ?_⟩
  intro h
  have := h.1
  simp at this

/-- Claim C4 as amended: the SHA format check accepts a string exactly when it
is forty case-insensitive hex characters, or forty hex characters followed by
one trailing newline (Python `$` semantics); any string it rejects makes the
commit validator fail immediately with `False`. -/
theorem c4_sha_format_amended :
    (∀ s : String, reMatchSha s = true ↔
      isHex40 s ∨ ∃ t : String, isHex40 t ∧ s = t ++ "\n") ∧
    (∀ (w : World) (kvs : List (String × JVal)) (token : Option String)
        (owner repo : String) (mock : Bool) (s : String),
      olookup kvs "target_commit_sha" = some (.str s) → reMatchSha s = false →
      verify_commit_data w (.obj kvs) token owner repo mock = .ok false) := by
  constructor
  · intro s
    obtain ⟨l⟩ := s
    rw [reMatchSha, reAnchored, Bool.or_eq_true, Bool.and_eq_true, decide_eq_true_eq]
    have hcore : ∀ m : List Char, shaCore m = true ↔
        m.length = 40 ∧ ∀ c ∈ m, isHexCI c = true := by
      intro m; simp [shaCore, List.all_eq_true]
    constructor
    · rintro (h | ⟨hlast, hdrop⟩)
      · exact Or.inl ((hcore _).mp h)
      · right
        have hne : l ≠ [] := by
          intro h0
          rw [show (String.mk l).toList = l from rfl, h0] at hlast
          simp at hlast
        have hlast' : l.getLast? = some '\n' := hlast
        have hl : l.getLast hne = '\n' := by
          have h1 := List.getLast?_eq_getLast l hne
          have h2 := h1.symm.trans hlast'
          exact Option.some.inj h2
        have h2 : l.dropLast ++ ['\n'] = l := by
          have h3 := List.dropLast_append_getLast hne
          rw [hl] at h3
          exact h3
        refine ⟨String.mk l.dropLast, (hcore _).mp hdrop, ?_⟩
        show String.mk l = String.mk (l.dropLast ++ ['\n'])
        rw [h2]
    · rintro (h | ⟨t, ht, heq⟩)
      · exact Or.inl ((hcore _).mpr h)
      · right
        obtain ⟨m⟩ := t
        have hlm : l = m ++ ['\n'] := by
          have : String.mk l = String.mk (m ++ ['\n']) := heq
          exact congrArg String.data this
        subst hlm
        refine ⟨?_, ?_⟩
        · show (m ++ ['\n']).getLast? = some '\n'
          exact List.getLast?_concat m
        · rw [show (String.mk (m ++ ['\n'])).toList.dropLast = (m ++ ['\n']).dropLast from rfl,
            List.dropLast_concat]
          exact (hcore _).mpr ht
  · intro w kvs token owner repo mock s hk hsha
    simp only [verify_commit_data, pyGet, hk, Option.getD_some, pbind_ok]
    rw [hsha]
    simp

/-- Witness for C4's amended theorem: a rejected SHA makes the commit validator
return `False` at once. -/
theorem c4_sha_format_amended_witness :
    verify_commit_data wSample (.obj [("target_commit_sha", .str "zzz")]) none
      "example-owner" "example-repo" true = .ok false :=
  c4_sha_format_amended.2 wSample [("target_commit_sha", .str "zzz")] none
    "example-owner" "example-repo" true "zzz" rfl rfl

/-- Counterexample to claim C5 as stated: in `exact` mode the comparison is
Python `==`, which coerces across numeric types — a document whose
`before`/`after` are the floats `4.0→2.0` and `8.0→4.0` passes against the
integer expectations `4→2` / `8→4`, although a float is not typed-equal to an
equal-valued integer expectation. -/
theorem c5_exact_coercion_counterexample :
    verify_parameter_changes CONFIG FLOAT_DOC = .ok true ∧
    docField floatParamChanges "micro_batch_size_per_device_for_update" "before" =
      .num .float 4 ∧
    olookup CONFIG.expected_values "micro_batch_size_per_device_for_update" =
      some (.obj [("before", .num .int 4), ("after", .num .int 2)]) ∧
    typedValueEq (.num .float 4) (.num .int 4) = false := ⟨rfl, rfl, rfl, rfl⟩

/-- Claim C5 as amended: in `exact` mode (document and policy well-shaped, the
completeness pass passing) the parameter validator passes exactly when every
policy-declared expected parameter's `before` and `after` equal the expected
values under Python `==`, which identifies numerically equal `int`, `float`
and `bool` values (`pyEq` on numbers is equality of the rational values,
ignoring the numeric type tag). -/
theorem c5_exact_mode_amended :
    (∀ (t t' : NumTag) (q q' : Rat), pyEq (.num t q) (.num t' q') = decide (q = q')) ∧
    (∀ (cfg : Config) (kvs pcs : List (String × JVal)),
      cfg.validation_mode = "exact" →
      olookup kvs "parameter_changes" = some (.obj pcs) →
      completenessLoop (.obj pcs) cfg.required_parameters = .ok true →
      expShapeOk cfg.expected_values = true →
      exactDocOk pcs cfg.expected_values = true →
      verify_parameter_changes cfg (.obj kvs) =
        .ok (cfg.expected_values.all fun pe =>
          pyEq (docField pcs pe.1 "before") (expField pe.2 "before") &&
          pyEq (docField pcs pe.1 "after") (expField pe.2 "after"))) := by
  constructor
  · intro t t' q q'; rfl
  · intro cfg kvs pcs hmode hpc hcomp hshape hdoc
    simp only [verify_parameter_changes, pyGetD, hpc, Option.getD_some, pbind_ok, hcomp]
    rw [hmode]
    simp only [Bool.not_true, Bool.false_eq_true, if_false, if_pos rfl]
    exact exactLoop_eq pcs cfg.expected_values hshape hdoc

/-- Witness for C5's amended theorem at the bundled configuration and sample
document (where the characterization evaluates to a pass). -/
theorem c5_exact_mode_amended_witness :
    verify_parameter_changes CONFIG SAMPLE_ANALYSIS = .ok true :=
  (c5_exact_mode_amended.2 CONFIG sampleKvs sampleParamChanges rfl rfl rfl rfl rfl).trans rfl

/-- Claim C8: in `range` validation mode (document and policy well-shaped, the
completeness pass passing), the parameter validator passes exactly when every
policy-declared ranged parameter's `before` value is a number lying within the
inclusive rational interval `[min_before, max_before]` — a value exactly at
either bound passes, and an absent (or null) `before`, or one strictly below
`min_before` or strictly above `max_before`, fails. -/
theorem c8_range_mode (cfg : Config) (kvs pcs rcs : List (String × JVal))
    (hmode : cfg.validation_mode = "range")
    (hpc : olookup kvs "parameter_changes" = some (.obj pcs))
    (hcomp : completenessLoop (.obj pcs) cfg.required_parameters = .ok true)
    (hrc : jsonLoads cfg.range_config = some (.obj rcs))
    (hcfg : rangeCfgOk rcs = true)
    (hdoc : rangeDocOk pcs rcs = true) :
    verify_parameter_changes cfg (.obj kvs) = .ok (rcs.all (rangeHit pcs)) := by
  simp only [verify_parameter_changes, pyGetD, hpc, Option.getD_some, pbind_ok, hcomp]
  rw [hmode]
  rw [if_neg (by decide : ¬ ("range" : String) = "exact"),
    if_neg (by decide : ¬ ("range" : String) = "any"),
    if_pos (rfl : ("range" : String) = "range")]
  simp only [Bool.not_true, Bool.false_eq_true, if_false]
  rw [hrc]
  exact rangeLoop_eq pcs rcs hcfg hdoc

/-- Witness for C8 at the bundled configuration switched to `range` mode, on
the sample document (`before = 4` lies in `[1, 16]`, so the validator passes). -/
theorem c8_range_mode_witness :
    verify_parameter_changes cfgRange SAMPLE_ANALYSIS = .ok true :=
  (c8_range_mode cfgRange sampleKvs sampleParamChanges rangeRcs
    rfl rfl rfl rfl rfl rfl).trans rfl

/-- Claim C7: when the document's issue set (duplicates collapsed) differs from
the independently computed expected set and every listed issue already passed
the per-issue content check (with the list shape and emptiness checks passing),
the issue validator returns `False` exactly when `STRICT_ISSUE_MATCH` is
enabled, and `True` (the mismatch is only reported) when it is disabled. -/
theorem c7_strict_issue_match (cfg : Config) (w : World) (token : Option String)
    (owner repo : String) (mock : Bool) (fuel : Nat) (kvs : List (String × JVal))
    (il expected : List JVal)
    (hil : olookup kvs "related_issue_number_list" = some (.arr il))
    (hne : ¬ il.length = 0 ∨ lowerStr cfg.allow_empty_issues = "true")
    (hcontent : issueContentLoop cfg w token owner repo mock il = .ok true)
    (hexp : get_relevant_issues cfg w token owner repo mock fuel = some (.ok expected))
    (hdiff : pySetEq (pySetOfList il) expected = false) :
    verify_issues cfg w (.obj kvs) token owner repo mock fuel =
      some (.ok (!decide (lowerStr cfg.strict_issue_match = "true"))) := by
  simp only [verify_issues, pyGetD, hil, Option.getD_some]
  have hcond : ¬ (il.length = 0 ∧ ¬ lowerStr cfg.allow_empty_issues = "true") := by
    rcases hne with h | h
    · exact fun hc => h hc.1
    · exact fun hc => hc.2 h
  rw [if_neg hcond, hcontent]
  simp only [Bool.not_true, Bool.false_eq_true, if_false]
  rw [hexp]
  simp only [hdiff, Bool.not_false, if_true]
  by_cases h : lowerStr cfg.strict_issue_match = "true" <;> simp [h]

/-- Witness for C7: a document listing only issue 101 (which passes the content
check) differs from the expected set `{101, 102}`; with the bundled strict
configuration the issue validator fails. -/
theorem c7_strict_issue_match_witness :
    verify_issues CONFIG wSample DOC_ISSUE_101 none "example-owner" "example-repo" true 1 =
      some (.ok false) :=
  (c7_strict_issue_match CONFIG wSample none "example-owner" "example-repo" true 1
    [("related_issue_number_list", .arr [.num .int 101])]
    [.num .int 101] [.num .int 101, .num .int 102]
    rfl (Or.inl (by decide)) rfl rfl rfl).trans rfl

/-- Counterexample to claim C6 as stated: a fetched page that is truthy but not
a list (here a dict) does not stop the pagination loop cleanly — iterating the
page raises an uncaught `AttributeError`, so `get_relevant_issues` propagates a
fault instead of stopping and returning the set collected so far. -/
theorem c6_nonlist_page_counterexample :
    get_relevant_issues CONFIG wBadPage none "example-owner" "example-repo" false 3 =
      some (.error "AttributeError") ∧
    ¬ get_relevant_issues CONFIG wBadPage none "example-owner" "example-repo" false 3 =
      some (.ok []) := by
  refine ⟨rfl, ?_⟩
  intro h
  have h1 : get_relevant_issues CONFIG wBadPage none "example-owner" "example-repo" false 3 =
      some (.error "AttributeError") := rfl
  rw [h1] at h
  simp at h

/-- Claim C6 as amended: on any run whose pages up to `N` are well-formed —
pages `1..N-1` successful lists of length at least the page size 100 with
fault-free items, page `N` either absent (fetch failure or falsy payload) or a
fault-free list shorter than 100 — the pagination loop advances through pages
`1..N-1`, stops exactly at page `N`, and returns the keyword-matching issue
numbers collected from pages `1..N`, for any fuel of at least `N`.  (A truthy
non-list page instead raises an uncaught fault, per the counterexample; if
every page is a full list, no amount of fuel makes the loop return.) -/
theorem c6_pagination_amended (cfg : Config) (w : World) (token : Option String)
    (owner repo : String) (mock : Bool) (pages : Nat → Bool × Option JVal)
    (hpages : ∀ n, github_api_request w (issuesEndpoint n) token owner repo mock =
      .ok (pages n))
    (N : Nat) (hN : 1 ≤ N)
    (hfull : ∀ n, 1 ≤ n → n < N → fullGoodPage cfg (pages n) = true)
    (hstop : stopGoodPage cfg (pages N) = true)
    (fuel : Nat) (hfuel : N ≤ fuel) :
    get_relevant_issues cfg w token owner repo mock fuel =
      some (.ok (contribRange cfg pages 1 N [])) := by
  have h := issuesLoop_run cfg w token owner repo mock pages hpages (N - 1) 1 [] fuel
    (fun n h1 h2 => hfull n h1 (by omega))
    (by rw [show 1 + (N - 1) = N from by omega]; exact hstop)
    (by omega)
  rw [get_relevant_issues, h, show N - 1 + 1 = N from by omega]

/-- Witness for C6's amended theorem: in mock mode every page request returns
the fixed two-issue list, so the loop stops at page 1 having collected issues
101 and 102. -/
theorem c6_pagination_amended_witness :
    get_relevant_issues CONFIG wSample none "example-owner" "example-repo" true 1 =
      some (.ok [JVal.num .int 101, JVal.num .int 102]) :=
  (c6_pagination_amended CONFIG wSample none "example-owner" "example-repo" true
    (fun _ => (true, some mockIssueList)) (fun _ => rfl) 1 (by decide)
    (fun n h1 h2 => by omega) rfl 1 (by decide)).trans rfl

/-- A list is a prefix of itself extended. -/
theorem leadsWith_append (l xs : List Char) : leadsWith l (l ++ xs) = true := by
  induction l with
  | nil => rfl
  | cons c rest ih => simp [leadsWith, ih]

/-- The adapter never raises on a `contents/` endpoint: the mock branch matches
it before the fallible `issues/` parse, and the live branch never raises. -/
theorem contents_fetch_ok (w : World) (name : String) (token : Option String)
    (owner repo : String) (mock : Bool) :
    ∃ r, github_api_request w ("contents/" ++ name) token owner repo mock = .ok r := by
  cases mock with
  | true =>
    have hs : strStarts ("contents/" ++ name) "contents/" = true := by
      rw [strStarts, show ("contents/" ++ name).toList = "contents/".toList ++ name.toList
        from String.data_append _ _]
      exact leadsWith_append _ _
    exact ⟨_, by rw [github_api_request, if_pos rfl, if_pos hs]⟩
  | false =>
    rw [github_api_request]
    simp only [Bool.false_eq_true, if_false]
    cases h : w.requestsAvail <;> simp [h]

/-- A configured format other than `"json"` makes the decode chain yield `None`
on every input. -/
theorem decodeContent_not_json (cfg : Config) (fd : JVal)
    (hfmt : ¬ cfg.analysis_file_format = "json") : decodeContent cfg fd = none := by
  rw [decodeContent]
  split
  · rfl
  · split
    · split
      · rfl
      · split
        · rfl
        · rw [if_neg hfmt]
    · rfl

/-- The decode chain yields a document exactly when every stage succeeds: the
payload carries a string `content`, base64 and UTF-8 decoding succeed, the
configured format is JSON, and the text parses to that document. -/
theorem decodeContent_some_iff (cfg : Config) (fd : JVal) (dv : JVal) :
    decodeContent cfg fd = some dv ↔
      ∃ enc bs txt, pyGetD fd "content" (.str "") = .ok (.str enc) ∧
        b64decodeStr enc = some bs ∧ utf8DecStr bs = some txt ∧
        cfg.analysis_file_format = "json" ∧ jsonLoads txt = some dv := by
  constructor
  · intro h
    rw [decodeContent] at h
    split at h
    · simp at h
    · rename_i contentEnc hok
      split at h
      · rename_i enc
        split at h
        · simp at h
        · rename_i bs hb64
          split at h
          · simp at h
          · rename_i txt hutf
            split at h
            · rename_i hfmt
              exact ⟨enc, bs, txt, hok, hb64, hutf, hfmt, h⟩
            · simp at h
      · simp at h
  · rintro ⟨enc, bs, txt, hget, hb64, hutf, hfmt, hjson⟩
    rw [decodeContent, hget]
    simp only [hb64, hutf, if_pos hfmt, hjson]

/-- A non-falsy optional payload is truthy. -/
theorem truthy_of_not_falsy (fd : JVal) (h2 : (!truthyOpt (some fd)) = false) :
    pyTruthy fd = true := by
  cases hq : pyTruthy fd with
  | true => rfl
  | false => rw [truthyOpt, hq] at h2; simp at h2

/-- A failed or falsy fetch makes the loader return `None`. -/
theorem load_none_of_fetch_fail (cfg : Config) (w : World) (token : Option String)
    (owner repo : String) (mock : Bool) (s : Bool) (d : Option JVal)
    (hreq : github_api_request w ("contents/" ++ cfg.analysis_file_name) token owner repo mock =
      .ok (s, d))
    (habs : (!s || !truthyOpt d) = true) :
    load_analysis_results cfg w token owner repo mock = .ok none := by
  rw [load_analysis_results, hreq, pbind_ok]
  exact if_pos habs

/-- After a successful truthy fetch, the loader returns exactly the decode
chain's result. -/
theorem load_eq_decode (cfg : Config) (w : World) (token : Option String)
    (owner repo : String) (mock : Bool) (fd : JVal)
    (hreq : github_api_request w ("contents/" ++ cfg.analysis_file_name) token owner repo mock =
      .ok (true, some fd))
    (htr : pyTruthy fd = true) :
    load_analysis_results cfg w token owner repo mock = .ok (decodeContent cfg fd) := by
  rw [load_analysis_results, hreq, pbind_ok]
  simp [truthyOpt, htr]

/-- Claim C9: the document loader returns `None` whenever the adapter fetch
fails or its payload is falsy, the decode chain faults (a non-string or
undecodable `content`, a JSON parse error) or the configured format is
anything other than JSON; it never raises, and it never returns a partially
constructed document — a returned document is exactly the result of the full
successful decode chain. -/
theorem c9_loader_none_on_fault (cfg : Config) (w : World) (token : Option String)
    (owner repo : String) (mock : Bool) :
    (∃ r, load_analysis_results cfg w token owner repo mock = .ok r) ∧
    (¬ cfg.analysis_file_format = "json" →
      load_analysis_results cfg w token owner repo mock = .ok none) ∧
    (∀ d, github_api_request w ("contents/" ++ cfg.analysis_file_name) token owner repo mock =
        .ok (false, d) →
      load_analysis_results cfg w token owner repo mock = .ok none) ∧
    (∀ fd, github_api_request w ("contents/" ++ cfg.analysis_file_name) token owner repo mock =
        .ok (true, some fd) →
      pyTruthy fd = true →
      decodeContent cfg fd = none →
      load_analysis_results cfg w token owner repo mock = .ok none) ∧
    (∀ dv, load_analysis_results cfg w token owner repo mock = .ok (some dv) →
      cfg.analysis_file_format = "json" ∧
      ∃ fd enc bs txt,
        github_api_request w ("contents/" ++ cfg.analysis_file_name) token owner repo mock =
          .ok (true, some fd) ∧
        pyTruthy fd = true ∧
        pyGetD fd "content" (.str "") = .ok (.str enc) ∧
        b64decodeStr enc = some bs ∧ utf8DecStr bs = some txt ∧
        jsonLoads txt = some dv) := by
  obtain ⟨⟨s, d⟩, hreq⟩ := contents_fetch_ok w cfg.analysis_file_name token owner repo mock
  refine ⟨?_, ?_, ?_, ?_, ?_⟩
  · cases habs : (!s || !truthyOpt d) with
    | true => exact ⟨none, load_none_of_fetch_fail cfg w token owner repo mock s d hreq habs⟩
    | false =>
      obtain ⟨h1, h2⟩ := Bool.or_eq_false_iff.mp habs
      have hs : s = true := by revert h1; cases s <;> simp
      subst hs
      rcases d with _ | fd
      · simp [truthyOpt] at h2
      have htr : pyTruthy fd = true := truthy_of_not_falsy fd h2
      exact ⟨decodeContent cfg fd, load_eq_decode cfg w token owner repo mock fd hreq htr⟩
  · intro hfmt
    cases habs : (!s || !truthyOpt d) with
    | true => exact load_none_of_fetch_fail cfg w token owner repo mock s d hreq habs
    | false =>
      obtain ⟨h1, h2⟩ := Bool.or_eq_false_iff.mp habs
      have hs : s = true := by revert h1; cases s <;> simp
      subst hs
      rcases d with _ | fd
      · simp [truthyOpt] at h2
      have htr : pyTruthy fd = true := truthy_of_not_falsy fd h2
      rw [load_eq_decode cfg w token owner repo mock fd hreq htr,
        decodeContent_not_json cfg fd hfmt]
  · intro d' hreq'
    have hpair : (s, d) = (false, d') := Except.ok.inj (hreq.symm.trans hreq')
    have hs : s = false := congrArg Prod.fst hpair
    exact load_none_of_fetch_fail cfg w token owner repo mock s d hreq (by rw [hs]; rfl)
  · intro fd hreq' htr hdec
    rw [load_eq_decode cfg w token owner repo mock fd hreq' htr, hdec]
  · intro dv hload
    cases habs : (!s || !truthyOpt d) with
    | true =>
      rw [load_none_of_fetch_fail cfg w token owner repo mock s d hreq habs] at hload
      simp at hload
    | false =>
      obtain ⟨h1, h2⟩ := Bool.or_eq_false_iff.mp habs
      have hs : s = true := by revert h1; cases s <;> simp
      subst hs
      rcases d with _ | fd
      · simp [truthyOpt] at h2
      have htr : pyTruthy fd = true := truthy_of_not_falsy fd h2
      rw [load_eq_decode cfg w token owner repo mock fd hreq htr] at hload
      have hdec : decodeContent cfg fd = some dv := Except.ok.inj hload
      obtain ⟨enc, bs, txt, hget, hb64, hutf, hfmt, hjson⟩ :=
        (decodeContent_some_iff cfg fd dv).mp hdec
      exact ⟨hfmt, fd, enc, bs, txt, hreq, htr, hget, hb64, hutf, hjson⟩

/-- Witness for C9: with the format configured as `yaml`, the loader returns
`None` in the offline world. -/
theorem c9_loader_none_on_fault_witness :
    load_analysis_results cfgYaml wSample none "example-owner" "example-repo" true = .ok none :=
  (c9_loader_none_on_fault cfgYaml wSample none "example-owner" "example-repo" true).2.1
    (by decide)
